import Mathlib

/-!
Verification of the pyipmi Sensor class (src/pyipmi/sensor.py): a shallow
embedding of the chunked Device-SDR record-retrieval protocol, the record
enumeration walk, and the sensor reading / threshold codecs, together with
theorems settling the specified properties.

Modelling conventions:
- Python ints are Nat where they are always non-negative byte values or
  counters, and Int where the source can drive them negative (the assembly
  retry counter and max_req_len / the request length derived from it).
- The request/response transport (send_message) is an explicit environment
  argument; at the assembly level the environment maps one whole
  _get_device_sdr_chunk call (indexed by call number, record id, offset,
  length) to that call's outcome.
- Python exceptions are explicit result constructors (RetryError,
  CompletionCodeError, the NameError raised by the undefined name Assert on
  line 181, DecodingError from short header data).
- The unbounded Python while-loops take a fuel argument; exhausting fuel
  yields a distinguished diverge outcome that models non-termination.
-/

set_option maxRecDepth 100000

/-- Completion code constant (pyipmi.msgs.constants): timeout. -/
def CC_TIMEOUT : Nat := 0xc3

/-- Completion code constant (pyipmi.msgs.constants): reservation canceled. -/
def CC_RES_CANCELED : Nat := 0xc5

/-- Completion code constant (pyipmi.msgs.constants): response could not be
provided. -/
def CC_RESP_COULD_NOT_BE_PRV : Nat := 0xce

/-- Completion code constant (pyipmi.msgs.constants): cannot return requested
number of bytes. -/
def CC_CANT_RET_NUM_REQ_BYTES : Nat := 0xca

/-- Response to one GetDeviceSdr request: completion code, next record id and
record data bytes (sensor.py line 133). -/
structure GetDeviceSdrRsp where
  completion_code : Nat
  next_record_id : Nat
  record_data : List Nat
deriving DecidableEq

/-- Outcome of one whole _get_device_sdr_chunk call: success with
(next_record_id, record_data), RetryError, or a CompletionCodeError with the
offending code (raised by check_completion_code on line 131). -/
inductive FetchResult where
  | ok (next_record_id : Nat) (record_data : List Nat)
  | retryError
  | ccError (cc : Nat)
deriving DecidableEq

/-- Retry loop of Sensor._get_device_sdr_chunk (sensor.py lines 111-133).
The first argument maps the send attempt number to the controller's response;
the Nat argument r is the Python retry variable before the decrement at line
114, the final Nat is the number of requests sent so far.  The
CC_RES_CANCELED branch additionally renews the reservation id field of the
pending request (line 121), which the abstract response environment already
absorbs; the sleep calls have no observable effect in this model. -/
def getDeviceSdrChunkGo (env : Nat → GetDeviceSdrRsp) : Nat → Nat → FetchResult × Nat
  | 0, k => (.retryError, k)
  | 1, k => (.retryError, k)
  | r + 2, k =>
    let rsp := env k
    if rsp.completion_code = 0 then
      (.ok rsp.next_record_id rsp.record_data, k + 1)
    else if rsp.completion_code = CC_RES_CANCELED ∨ rsp.completion_code = CC_TIMEOUT ∨
        rsp.completion_code = CC_RESP_COULD_NOT_BE_PRV then
      getDeviceSdrChunkGo env (r + 1) (k + 1)
    else
      (.ccError rsp.completion_code, k + 1)

/-- Sensor._get_device_sdr_chunk: enters its retry loop with retry = 5
(sensor.py line 111) and no requests sent yet. -/
def getDeviceSdrChunk (env : Nat → GetDeviceSdrRsp) : FetchResult × Nat :=
  getDeviceSdrChunkGo env 5 0

/-- Session-scoped mutable state of the Sensor object that the assembly
touches: the self.max_req_len attribute (Int, since the source can drive it
negative by repeated subtraction of 4). -/
structure SensorState where
  maxReqLen : Int
deriving DecidableEq

/-- Outcome of Sensor.get_device_sdr: a decoded record (modelled as the raw
assembled buffer plus the next_record_id handed to sdr.create_sdr), or one of
the exceptions the function can raise.  nameError models the NameError that
evaluating the undefined name Assert (line 181) raises; decodingError models
the DecodingError the header pops raise on short data; diverge models
non-termination (fuel exhaustion in this embedding). -/
inductive AsmResult where
  | ok (record_data : List Nat) (next_record_id : Nat)
  | retryError
  | ccError (cc : Nat)
  | nameError
  | decodingError
  | diverge
deriving DecidableEq

/-- Result of a get_device_sdr call: the outcome, the trace of chunk requests
issued as (record id, offset, length) triples in order, and the final
SensorState (the value of self.max_req_len afterwards). -/
structure AsmOut where
  result : AsmResult
  trace : List (Nat × Int × Int)
  state : SensorState
deriving DecidableEq

/-- Environment seen by get_device_sdr: maps a chunk-call index (0 is the
header fetch), the record id, offset and length of the request to the outcome
of that whole _get_device_sdr_chunk call. -/
def Env : Type := Nat → Nat → Int → Int → FetchResult

/-- Assembly loop of Sensor.get_device_sdr (sensor.py lines 160-186).
Arguments after the fixed env / record id / record_length: fuel, chunk-call
index, record_data buffer, the Python data variable (kept for the stale
append the except-path falls through to at line 183), next_record_id, retry
counter, and self.max_req_len.  Mirrors the source exactly, including the
fall-through of the except CompletionCodeError handler into
record_data.append_array(data[:]) and the retry = 0 assignment at line 179. -/
def getDeviceSdrLoop (env : Env) (rid : Nat) (recLen : Int) :
    Nat → Nat → List Nat → List Nat → Nat → Int → Int → AsmOut
  | 0, _k, _buf, _data, _nid, _retry, m => ⟨.diverge, [], ⟨m⟩⟩
  | fuel + 1, k, buf, data, nid, retry, m =>
    if retry - 1 = 0 then ⟨.retryError, [], ⟨m⟩⟩
    else
      let offset : Int := (buf.length : Int)
      let length : Int := if offset + m > recLen then recLen - offset else m
      match env k rid offset length with
      | .ok nid2 d =>
        let buf2 := buf ++ d
        if recLen ≤ (buf2.length : Int) then
          ⟨.ok buf2 nid2, [(rid, offset, length)], ⟨m⟩⟩
        else
          let o := getDeviceSdrLoop env rid recLen fuel (k + 1) buf2 d nid2 (retry - 1) m
          ⟨o.result, (rid, offset, length) :: o.trace, o.state⟩
      | .retryError => ⟨.retryError, [(rid, offset, length)], ⟨m⟩⟩
      | .ccError cc =>
        if cc = CC_CANT_RET_NUM_REQ_BYTES then
          let m2 := m - 4
          let retry2 : Int := if m2 ≤ 0 then 0 else retry - 1
          let buf2 := buf ++ data
          if recLen ≤ (buf2.length : Int) then
            ⟨.ok buf2 nid, [(rid, offset, length)], ⟨m2⟩⟩
          else
            let o := getDeviceSdrLoop env rid recLen fuel (k + 1) buf2 data nid retry2 m2
            ⟨o.result, (rid, offset, length) :: o.trace, o.state⟩
        else
          ⟨.nameError, [(rid, offset, length)], ⟨m⟩⟩

/-- Sensor.get_device_sdr (sensor.py lines 135-188).  Fetches the 5-byte
header (chunk call 0), parses record id (2 bytes little-endian), version,
type and payload length (version and type are popped but unused), computes
record_length = payload_length + 5, initializes the buffer with the full
header data, sets self.max_req_len = 20 and retry = 20, and runs the
assembly loop.  A header-fetch failure propagates; header data shorter than
5 bytes makes the pops raise DecodingError.  The incoming SensorState is
returned unchanged on the pre-loop failure paths (self.max_req_len is only
assigned at line 159). -/
def getDeviceSdr (fuel : Nat) (st : SensorState) (env : Env) (record_id : Nat) : AsmOut :=
  match env 0 record_id 0 5 with
  | .ok nid data =>
    if 5 ≤ data.length then
      let rid2 := data.getD 0 0 + 256 * data.getD 1 0
      let payloadLen := data.getD 4 0
      let recLen : Int := (payloadLen : Int) + 5
      let o := getDeviceSdrLoop env rid2 recLen fuel 1 data data nid 20 20
      ⟨o.result, (record_id, 0, 5) :: o.trace, o.state⟩
    else ⟨.decodingError, [(record_id, 0, 5)], st⟩
  | .retryError => ⟨.retryError, [(record_id, 0, 5)], st⟩
  | .ccError cc => ⟨.ccError cc, [(record_id, 0, 5)], st⟩

/-- Slice of a byte list at an Int offset and length, as a well-behaved
controller serves a chunk request against a stored record. -/
def sliceI (l : List Nat) (off len : Int) : List Nat :=
  (l.drop off.toNat).take len.toNat

/-- Reference single-shot read of a whole stored record. -/
def singleShotRead (l : List Nat) : List Nat :=
  sliceI l 0 (l.length : Int)

/-- Well-behaved controller holding one record: every chunk call succeeds,
returns the requested slice of the record and reports the next record id as
a function of the call index. -/
def mkEnv (rec : List Nat) (nid : Nat → Nat) : Env :=
  fun k _rid off len => .ok (nid k) (sliceI rec off len)

/-- Well-behaved controller holding a repository: a chunk call for record id
r succeeds with the requested slice of record r and reports record r's next
record id. -/
def repoEnv (repo : Nat → List Nat × Nat) : Env :=
  fun _k rid off len => .ok (repo rid).2 (sliceI (repo rid).1 off len)

/-- Trace well-formedness against a record of total length L, starting at
offset n: requests are contiguous (each offset is the previous offset plus
the previous length), offsets strictly increase (every non-final length is
positive), and no request reaches past L (so the assembled buffer length
never exceeds L). -/
def goodTrace (L : Int) : Int → List (Nat × Int × Int) → Bool
  | _, [] => true
  | n, e :: tr =>
    decide (e.2.1 = n) && decide (0 ≤ e.2.2) && decide (e.2.1 + e.2.2 ≤ L) &&
      (tr.isEmpty || decide (0 < e.2.2)) && goodTrace L (e.2.1 + e.2.2) tr

/-- Result of running the device_sdr_entries generator to completion: the
yielded (record_data, next_record_id) pairs, the concatenated chunk-request
trace, and whether the walk terminated normally (false when a get_device_sdr
call failed or the fuel ran out). -/
structure EnumOut where
  yielded : List (List Nat × Nat)
  trace : List (Nat × Int × Int)
  ok : Bool
deriving DecidableEq

/-- Loop of Sensor.device_sdr_entries (sensor.py lines 197-202): call
get_device_sdr at the current record id, yield the result, stop after a
record whose next id is 0xffff, otherwise continue at that next id.  The
SensorState threads from call to call exactly as the self attribute does. -/
def deviceSdrEntriesGo (env : Env) (afuel : Nat) :
    Nat → SensorState → Nat → EnumOut
  | 0, _st, _rid => ⟨[], [], false⟩
  | fuel + 1, st, rid =>
    let o := getDeviceSdr afuel st env rid
    match o.result with
    | .ok buf nid =>
      if nid = 0xffff then ⟨[(buf, nid)], o.trace, true⟩
      else
        let rest := deviceSdrEntriesGo env afuel fuel o.state nid
        ⟨(buf, nid) :: rest.yielded, o.trace ++ rest.trace, rest.ok⟩
    | _ => ⟨[], o.trace, false⟩

/-- Sensor.device_sdr_entries (sensor.py lines 190-202): the walk starts at
record id 0. -/
def deviceSdrEntries (fuel afuel : Nat) (st : SensorState) (env : Env) : EnumOut :=
  deviceSdrEntriesGo env afuel fuel st 0

/-- Record r of a repository is well formed: its bytes carry the payload
length (a byte) at index 4 with total length payload + 5, and embed its own
id in the first two bytes (little-endian), as Sensor.get_device_sdr re-reads
the id from the header at line 151. -/
def wellFormedRecb (repo : Nat → List Nat × Nat) (r : Nat) : Bool :=
  decide ((repo r).1.length = (repo r).1.getD 4 0 + 5) &&
    decide ((repo r).1.getD 4 0 ≤ 255) &&
    decide ((repo r).1.getD 0 0 + 256 * (repo r).1.getD 1 0 = r)

/-- The id chain of a repository starting at r consists of n + 1 well-formed
non-sentinel records, the first n of which point to the next one and the
last of which reports the sentinel 0xffff. -/
def chainOKb (repo : Nat → List Nat × Nat) : Nat → Nat → Bool
  | r, 0 =>
    wellFormedRecb repo r && decide (r ≠ 0xffff) && decide ((repo r).2 = 0xffff)
  | r, n + 1 =>
    wellFormedRecb repo r && decide (r ≠ 0xffff) && decide ((repo r).2 ≠ 0xffff) &&
      chainOKb repo ((repo r).2) n

/-- The records the enumeration is expected to yield when walking n + 1
chain steps from record id r. -/
def expectedYields (repo : Nat → List Nat × Nat) : Nat → Nat → List (List Nat × Nat)
  | r, 0 => [((repo r).1, (repo r).2)]
  | r, n + 1 => ((repo r).1, (repo r).2) :: expectedYields repo ((repo r).2) n

/-- Response to GetSensorReading as Sensor.get_sensor_reading consumes it:
the raw reading byte, the initial_update_in_progress config flag and the two
optional assertion-state bytes. -/
structure GetSensorReadingRsp where
  sensor_reading : Nat
  initial_update_in_progress : Bool
  states1 : Option Nat
  states2 : Option Nat
deriving DecidableEq

/-- Decoding part of Sensor.get_sensor_reading (sensor.py lines 231-240):
the reading is dropped while an initial update is in progress; states starts
as None, becomes states1 when present, and is or-ed with states2 shifted
left by 8 when states2 is present.  When states1 is absent but states2 is
present the source evaluates None |= int, which raises TypeError, modelled
as the error outcome. -/
def getSensorReading (rsp : GetSensorReadingRsp) : Except Unit (Option Nat × Option Nat) :=
  let reading : Option Nat :=
    if rsp.initial_update_in_progress then none else some rsp.sensor_reading
  let states0 : Option Nat := rsp.states1
  match rsp.states2 with
  | none => .ok (reading, states0)
  | some w =>
    match states0 with
    | none => .error ()
    | some v => .ok (reading, some (Nat.lor v (Nat.shiftLeft w 8)))

/-- Set-mask bits of a SetSensorThresholds request, one per named
threshold. -/
structure SetMask where
  unr : Nat
  ucr : Nat
  unc : Nat
  lnc : Nat
  lcr : Nat
  lnr : Nat
deriving DecidableEq

/-- Raw threshold value fields of a SetSensorThresholds request. -/
structure ThresholdVals where
  unr : Nat
  ucr : Nat
  unc : Nat
  lnc : Nat
  lcr : Nat
  lnr : Nat
deriving DecidableEq

/-- A SetSensorThresholds request object with the fields
Sensor.set_sensor_thresholds assigns. -/
structure SetSensorThresholdsReq where
  sensor_number : Nat
  lun : Nat
  set_mask : SetMask
  threshold : ThresholdVals
deriving DecidableEq

/-- Modelled from the spec: the request object returned by
create_request_by_name (a collaborator outside src/) starts with all
set-mask bits clear and zero-valued threshold fields, so fields the caller
does not supply are neither marked nor transmitted. -/
def freshSetSensorThresholdsReq : SetSensorThresholdsReq :=
  ⟨0, 0, ⟨0, 0, 0, 0, 0, 0⟩, ⟨0, 0, 0, 0, 0, 0⟩⟩

/-- Sensor.set_sensor_thresholds (sensor.py lines 242-276), acting on the
request object req0: sets sensor_number and lun, then for each supplied
(non-None) threshold sets the corresponding set-mask bit to 1 and the
corresponding value field; unsupplied thresholds leave both fields of req0
untouched. -/
def setSensorThresholds (req0 : SetSensorThresholdsReq) (sensor_number lun : Nat)
    (unr ucr unc lnc lcr lnr : Option Nat) : SetSensorThresholdsReq :=
  let req := { req0 with sensor_number := sensor_number, lun := lun }
  let req := match unr with
    | some v => { req with set_mask.unr := 1, threshold.unr := v }
    | none => req
  let req := match ucr with
    | some v => { req with set_mask.ucr := 1, threshold.ucr := v }
    | none => req
  let req := match unc with
    | some v => { req with set_mask.unc := 1, threshold.unc := v }
    | none => req
  let req := match lnc with
    | some v => { req with set_mask.lnc := 1, threshold.lnc := v }
    | none => req
  let req := match lcr with
    | some v => { req with set_mask.lcr := 1, threshold.lcr := v }
    | none => req
  let req := match lnr with
    | some v => { req with set_mask.lnr := 1, threshold.lnr := v }
    | none => req
  req

/-- Helper: an element of the take-5 prefix read through getD. -/
theorem getD_take_lt (l : List Nat) (i m : Nat) (h : i < m) :
    (l.take m).getD i 0 = l.getD i 0 := by
  simp [List.getD_eq_getElem?_getD, List.getElem?_take, h]

/-- Unfolding characterization of goodTrace on a cons cell. -/
theorem goodTrace_cons (L n : Int) (e : Nat × Int × Int) (tr : List (Nat × Int × Int)) :
    goodTrace L n (e :: tr) = true ↔
      (e.2.1 = n ∧ 0 ≤ e.2.2 ∧ e.2.1 + e.2.2 ≤ L ∧ (tr = [] ∨ 0 < e.2.2) ∧
        goodTrace L (e.2.1 + e.2.2) tr = true) := by
  simp [goodTrace, and_assoc, List.isEmpty_iff]

/-- Loop invariant for the assembly loop running against a well-behaved
controller: starting from a buffer holding the first n bytes of the record,
with enough retry budget and fuel for the remaining ceil((L - n) / 20)
iterations, the loop returns the whole record, reports the next record id of
its last chunk call, and issues a contiguous, strictly increasing,
in-bounds request trace. -/
theorem getDeviceSdrLoop_ideal (rec : List Nat) (nid : Nat → Nat) (env : Env) (rid : Nat)
    (henv : ∀ k off len, 1 ≤ k →
      env k rid off len = FetchResult.ok (nid k) (sliceI rec off len)) :
    ∀ steps fuel k n (retry : Int) (data : List Nat) (nid0 : Nat),
      1 ≤ k → n ≤ rec.length → rec.length ≤ n + 20 * steps → 1 ≤ steps → steps ≤ fuel →
      (steps : Int) < retry →
      ∃ tr,
        getDeviceSdrLoop env rid (rec.length : Int) fuel k (rec.take n) data nid0 retry 20 =
          ⟨.ok rec (nid (k + tr.length - 1)), tr, ⟨20⟩⟩ ∧
        tr ≠ [] ∧ goodTrace (rec.length : Int) (n : Int) tr = true ∧
        ∀ e ∈ tr, e.1 = rid := by
  intro steps
  induction steps with
  | zero =>
    intro fuel k n retry data nid0 hk hn hlen hs hsf hsr
    exact absurd hs (by omega)
  | succ s ih =>
    intro fuel k n retry data nid0 hk hn hlen hs hsf hsr
    cases fuel with
    | zero => exact absurd hsf (by omega)
    | succ f =>
      have hretry : ¬(retry - 1 = 0) := by
        have h20 : ((s : Int) + 1) < retry := by exact_mod_cast hsr
        omega
      have hoff : ((rec.take n).length : Int) = (n : Int) := by
        simp [List.length_take]; omega
      simp only [getDeviceSdrLoop, hoff, if_neg hretry]
      by_cases hfin : (n : Int) + 20 > (rec.length : Int)
      · -- final chunk: request length L - n, the slice completes the record
        have hsl : sliceI rec (n : Int) ((rec.length : Int) - (n : Int)) = rec.drop n := by
          unfold sliceI
          have h1 : ((n : Int)).toNat = n := by omega
          have h2 : (((rec.length : Int) - (n : Int))).toNat = rec.length - n := by omega
          rw [h1, h2]
          exact List.take_of_length_le (by simp)
        rw [if_pos hfin, henv k _ _ hk, hsl]
        dsimp only
        simp only [List.take_append_drop]
        have hdone : (rec.length : Int) ≤ ((rec.length : Nat) : Int) := le_refl _
        rw [if_pos hdone]
        refine ⟨[(rid, (n : Int), (rec.length : Int) - (n : Int))], ?_, by simp, ?_, by simp⟩
        · simp
        · simp [goodTrace]; omega
      · -- non-final chunk: request length 20
        have hsl : sliceI rec (n : Int) (20 : Int) = (rec.drop n).take 20 := by
          unfold sliceI
          have h1 : ((n : Int)).toNat = n := by omega
          rw [h1]
          rfl
        rw [if_neg hfin, henv k _ _ hk, hsl]
        dsimp only
        have hbuf : rec.take n ++ (rec.drop n).take 20 = rec.take (n + 20) :=
          (List.take_add rec n 20).symm
        rw [hbuf]
        have hlen20 : (rec.take (n + 20)).length = n + 20 := by
          simp [List.length_take]; omega
        by_cases hdone : (rec.length : Int) ≤ ((rec.take (n + 20)).length : Int)
        · -- the record is exactly n + 20 bytes long: done
          have hL : rec.length = n + 20 := by
            rw [hlen20] at hdone
            have : (rec.length : Int) ≤ ((n + 20 : Nat) : Int) := by exact_mod_cast hdone
            omega
          rw [if_pos hdone]
          have htake : rec.take (n + 20) = rec := by
            rw [← hL]; exact List.take_length ..
          rw [htake]
          refine ⟨[(rid, (n : Int), (20 : Int))], ?_, by simp, ?_, by simp⟩
          · simp
          · simp [goodTrace]; omega
        · -- more bytes remain: recurse
          rw [if_neg hdone]
          have hlt : n + 20 < rec.length := by
            rw [hlen20] at hdone
            have : ¬((rec.length : Int) ≤ ((n + 20 : Nat) : Int)) := by exact_mod_cast hdone
            omega
          obtain ⟨tr, heq, hne, hgd, hrid⟩ :=
            ih f (k + 1) (n + 20) (retry - 1) ((rec.drop n).take 20) (nid k)
              (by omega) (by omega) (by omega)
              (by omega) (by omega)
              (by have h20 : ((s : Int) + 1) < retry := by exact_mod_cast hsr
                  omega)
          rw [heq]
          refine ⟨(rid, (n : Int), (20 : Int)) :: tr, ?_, by simp, ?_, ?_⟩
          · have hidx : k + 1 + tr.length - 1 = k + (tr.length + 1) - 1 := by omega
            simp [hidx]
          · have hcast : ((n : Int) + 20) = ((n + 20 : Nat) : Int) := by push_cast; ring
            rw [goodTrace_cons]
            dsimp only
            refine ⟨rfl, by omega, by omega, Or.inr (by omega), ?_⟩
            rw [hcast]
            exact hgd
          · intro e he
            rcases List.mem_cons.mp he with h | h
            · rw [h]
            · exact hrid e h

/-- A get_device_sdr call against a well-behaved controller serving one
record rec: the header call (index 0) answers the 5-byte header read and
every loop call for the embedded record id answers the requested slice.
The call returns exactly rec together with the next record id reported by
the last chunk call, makes at least the header call and one loop call, and
issues a contiguous, strictly increasing, in-bounds request trace whose
record ids are the requested id (header) or the embedded id (loop). -/
theorem getDeviceSdr_ideal (env : Env) (rec : List Nat) (nid : Nat → Nat)
    (st : SensorState) (rid0 : Nat) (fuel : Nat)
    (hL : rec.length = rec.getD 4 0 + 5)
    (hP : rec.getD 4 0 ≤ 255)
    (hf : 13 ≤ fuel)
    (hh : env 0 rid0 0 5 = FetchResult.ok (nid 0) (sliceI rec 0 5))
    (hl : ∀ k off len, 1 ≤ k →
      env k (rec.getD 0 0 + 256 * rec.getD 1 0) off len =
        FetchResult.ok (nid k) (sliceI rec off len)) :
    ∃ tr,
      getDeviceSdr fuel st env rid0 = ⟨.ok rec (nid (tr.length - 1)), tr, ⟨20⟩⟩ ∧
      2 ≤ tr.length ∧ goodTrace (rec.length : Int) 0 tr = true ∧
      ∀ e ∈ tr, e.1 = rid0 ∨ e.1 = rec.getD 0 0 + 256 * rec.getD 1 0 := by
  have h5 : 5 ≤ rec.length := by omega
  have hdata : sliceI rec 0 5 = rec.take 5 := rfl
  have hlen5 : (rec.take 5).length = 5 := by simp [List.length_take]; omega
  unfold getDeviceSdr
  rw [hh, hdata]
  dsimp only
  rw [if_pos (by rw [hlen5])]
  simp only [getD_take_lt rec 0 5 (by norm_num), getD_take_lt rec 1 5 (by norm_num),
    getD_take_lt rec 4 5 (by norm_num)]
  have hrl : ((rec.getD 4 0 : Nat) : Int) + 5 = (rec.length : Int) := by omega
  rw [hrl]
  obtain ⟨tr, heq, hne, hgd, hrid⟩ :=
    getDeviceSdrLoop_ideal rec nid env (rec.getD 0 0 + 256 * rec.getD 1 0) hl
      13 fuel 1 5 20 (rec.take 5) (nid 0)
      (by norm_num) h5 (by omega) (by norm_num) hf (by norm_num)
  rw [show rec.take 5 = List.take 5 rec from rfl] at heq
  rw [heq]
  refine ⟨(rid0, (0 : Int), (5 : Int)) :: tr, ?_, ?_, ?_, ?_⟩
  · have hidx : 1 + tr.length - 1 = (tr.length + 1) - 1 := by omega
    simp [hidx]
  · have : 0 < tr.length := List.length_pos.mpr hne
    simp; omega
  · rw [goodTrace_cons]
    dsimp only
    refine ⟨rfl, by norm_num, by omega, Or.inr (by norm_num), ?_⟩
    rw [show ((0 : Int) + 5) = ((5 : Nat) : Int) from by norm_num]
    exact hgd
  · intro e he
    rcases List.mem_cons.mp he with h | h
    · rw [h]; exact Or.inl rfl
    · exact Or.inr (hrid e h)

/-- A single-shot read of a whole record returns exactly its bytes. -/
theorem singleShotRead_eq (l : List Nat) : singleShotRead l = l := by
  simp [singleShotRead, sliceI]

/-- C1: for every record of total length L = payload_length + 5 whose chunk
fetches all succeed (a well-behaved controller answers every request with
the requested slice), get_device_sdr assembles and hands to the record
decoder a buffer of exactly L bytes, byte-for-byte equal to what a
single-shot read of the record returns; the requests are issued in strictly
increasing, contiguous offset order and never reach past L, so the buffer
length never exceeds L (goodTrace). -/
theorem getDeviceSdr_chunked_eq_single_shot (rec : List Nat) (nid : Nat → Nat)
    (st : SensorState) (rid0 : Nat) (fuel : Nat)
    (hL : rec.length = rec.getD 4 0 + 5)
    (hP : rec.getD 4 0 ≤ 255)
    (hf : 13 ≤ fuel) :
    ∃ tr nextid,
      getDeviceSdr fuel st (mkEnv rec nid) rid0 =
        ⟨.ok (singleShotRead rec) nextid, tr, ⟨20⟩⟩ ∧
      (singleShotRead rec).length = rec.getD 4 0 + 5 ∧
      goodTrace (rec.length : Int) 0 tr = true := by
  obtain ⟨tr, heq, hlen2, hgd, hrid⟩ :=
    getDeviceSdr_ideal (mkEnv rec nid) rec nid st rid0 fuel hL hP hf rfl
      (fun k off len _ => rfl)
  refine ⟨tr, nid (tr.length - 1), ?_, ?_, hgd⟩
  · rw [singleShotRead_eq]; exact heq
  · rw [singleShotRead_eq]; exact hL

/-- Witness for C1 at a concrete 7-byte record (payload length 2). -/
theorem getDeviceSdr_chunked_eq_single_shot_witness :
    ∃ tr nextid,
      getDeviceSdr 13 ⟨20⟩ (mkEnv [1, 0, 0, 0, 2, 9, 7] (fun _ => 3)) 0 =
        ⟨.ok (singleShotRead [1, 0, 0, 0, 2, 9, 7]) nextid, tr, ⟨20⟩⟩ ∧
      (singleShotRead [1, 0, 0, 0, 2, 9, 7]).length =
        ([1, 0, 0, 0, 2, 9, 7] : List Nat).getD 4 0 + 5 ∧
      goodTrace ((([1, 0, 0, 0, 2, 9, 7] : List Nat).length : Nat) : Int) 0 tr = true :=
  getDeviceSdr_chunked_eq_single_shot [1, 0, 0, 0, 2, 9, 7] (fun _ => 3) ⟨20⟩ 0 13
    (by decide) (by decide) (by decide)

/-- C9: against a well-behaved controller whose chunk call number k reports
next record id nid k, the decoded record returned by get_device_sdr carries
nid (tr.length - 1), the id reported by the last chunk call of the
assembly: calls are indexed 0 (the header fetch) through tr.length - 1, and
since 2 ≤ tr.length, at least one loop fetch follows the header, so the
header fetch's next id (nid 0) is superseded as the chaining value. -/
theorem getDeviceSdr_next_id_from_last_fetch (rec : List Nat) (nid : Nat → Nat)
    (st : SensorState) (rid0 : Nat) (fuel : Nat)
    (hL : rec.length = rec.getD 4 0 + 5)
    (hP : rec.getD 4 0 ≤ 255)
    (hf : 13 ≤ fuel) :
    ∃ tr,
      getDeviceSdr fuel st (mkEnv rec nid) rid0 =
        ⟨.ok rec (nid (tr.length - 1)), tr, ⟨20⟩⟩ ∧
      2 ≤ tr.length := by
  obtain ⟨tr, heq, hlen2, hgd, hrid⟩ :=
    getDeviceSdr_ideal (mkEnv rec nid) rec nid st rid0 fuel hL hP hf rfl
      (fun k off len _ => rfl)
  exact ⟨tr, heq, hlen2⟩

/-- Witness for C9: with nid k = k (each chunk call reports its own index),
the 7-byte record's assembly makes 2 calls and returns next id 1, the value
of the last (loop) fetch, not the header fetch's 0. -/
theorem getDeviceSdr_next_id_from_last_fetch_witness :
    ∃ tr,
      getDeviceSdr 13 ⟨20⟩ (mkEnv [1, 0, 0, 0, 2, 9, 7] (fun k => k)) 0 =
        ⟨.ok [1, 0, 0, 0, 2, 9, 7] (tr.length - 1), tr, ⟨20⟩⟩ ∧
      2 ≤ tr.length :=
  getDeviceSdr_next_id_from_last_fetch [1, 0, 0, 0, 2, 9, 7] (fun k => k) ⟨20⟩ 0 13
    (by decide) (by decide) (by decide)

/-- C10: when the 5-byte header fetch already supplies the complete record
(payload_length byte 0, total record length 5), the assembly loop still
issues one further chunk request, with length 0 at offset 5, before the
record is returned. -/
theorem getDeviceSdr_zero_payload_zero_length_request
    (b0 b1 b2 b3 : Nat) (nid : Nat → Nat) (st : SensorState) (rid0 : Nat) :
    getDeviceSdr 13 st (mkEnv [b0, b1, b2, b3, 0] nid) rid0 =
      ⟨.ok [b0, b1, b2, b3, 0] (nid 1),
        [(rid0, 0, 5), (b0 + 256 * b1, 5, 0)], ⟨20⟩⟩ := rfl

/-- Environment for the chunk-cap exhaustion scenario: the header fetch
(call 0) succeeds with a header declaring payload length 100 (total record
length 105); every later chunk call fails with CompletionCodeError whose
code is "cannot return requested number of bytes". -/
def capExhaustEnv : Env :=
  fun k _rid _off _len =>
    if k = 0 then .ok 7 [0, 0, 1, 1, 100]
    else .ccError CC_CANT_RET_NUM_REQ_BYTES

/-- C2 failing input: with every loop chunk fetch failing with "cannot
return requested number of bytes", the source does shrink max_req_len by 4
each time, but when the cap reaches 0 the retry = 0 assignment (line 179)
is skipped over by the loop's decrement-then-compare guard (retry goes 0 to
-1 and the == 0 test at line 165 never fires again), so no RetryError is
raised; the handler falls through to append the stale header bytes (line
183), requests with length 0 and then negative lengths are issued, and the
call returns a corrupt 105-byte buffer as success with max_req_len driven
to -60. -/
theorem getDeviceSdr_cap_exhaustion_no_retryError :
    (getDeviceSdr 25 ⟨20⟩ capExhaustEnv 0).result ≠ AsmResult.retryError ∧
    (∃ e ∈ (getDeviceSdr 25 ⟨20⟩ capExhaustEnv 0).trace, e.2.2 = 0) ∧
    (∃ e ∈ (getDeviceSdr 25 ⟨20⟩ capExhaustEnv 0).trace, e.2.2 < 0) ∧
    (getDeviceSdr 25 ⟨20⟩ capExhaustEnv 0).result =
      .ok (List.flatten (List.replicate 21 [0, 0, 1, 1, 100])) 7 ∧
    (getDeviceSdr 25 ⟨20⟩ capExhaustEnv 0).state.maxReqLen = -60 := by decide

/-- Environment where the header fetch succeeds (payload length 10) and
every loop chunk call fails with a CompletionCodeError whose code 0xc1 is
not "cannot return requested number of bytes". -/
def unknownCcEnv : Env :=
  fun k _rid _off _len =>
    if k = 0 then .ok 7 [0, 0, 1, 1, 10] else .ccError 0xc1

/-- C4 failing input: a CompletionCodeError with an unrecognized code inside
the assembly loop is not propagated unchanged: the else branch of the
handler evaluates the undefined name Assert (line 181), so the caller sees
a NameError instead of the original CompletionCodeError(0xc1). -/
theorem getDeviceSdr_unknown_cc_nameError :
    (getDeviceSdr 13 ⟨20⟩ unknownCcEnv 0).result = AsmResult.nameError ∧
    (getDeviceSdr 13 ⟨20⟩ unknownCcEnv 0).result ≠ AsmResult.ccError 0xc1 := by decide

/-- Environment for a record assembly (total length 25) in which the first
loop chunk call is refused with "cannot return requested number of bytes"
(shrinking max_req_len from 20 to 16) and the retried call succeeds. -/
def shrinkThenOkEnv : Env :=
  fun k _rid _off _len =>
    if k = 0 then .ok 7 [0, 0, 1, 1, 20]
    else if k = 1 then .ccError CC_CANT_RET_NUM_REQ_BYTES
    else .ok 8 [0, 0, 0, 0, 0, 0, 0, 0, 0, 0, 0, 0, 0, 0, 0]

/-- C5 counterexample: a get_device_sdr call whose assembly shrank
max_req_len to 16 leaves state 16 behind, yet the next get_device_sdr call
entered with that state requests its first loop chunk (trace entry 1) with
length 20, not 16: line 159 re-assigns self.max_req_len = 20 on every call,
so the cap is not carried over between records. -/
theorem getDeviceSdr_max_req_len_reset_cex :
    (getDeviceSdr 13 ⟨20⟩ shrinkThenOkEnv 0).state = ⟨16⟩ ∧
    (getDeviceSdr 13 ⟨16⟩
        (mkEnv ([0, 1, 1, 1, 25] ++ List.replicate 25 0) (fun _ => 9)) 0).trace.getD 1
        (0, 0, 0) = (256, 5, 20) ∧
    (20 : Int) ≠ 16 := by decide

/-- C5 amended: self.max_req_len is reset to 20 at the start of every
get_device_sdr assembly (line 159), so the call's outcome and its request
trace are independent of the incoming value; shrinks persist only within a
single record's assembly. -/
theorem getDeviceSdr_result_independent_of_incoming_max
    (fuel : Nat) (s1 s2 : SensorState) (env : Env) (rid : Nat) :
    (getDeviceSdr fuel s1 env rid).result = (getDeviceSdr fuel s2 env rid).result ∧
    (getDeviceSdr fuel s1 env rid).trace = (getDeviceSdr fuel s2 env rid).trace := by
  unfold getDeviceSdr
  cases env 0 rid 0 5 with
  | ok nid data =>
    by_cases h5 : 5 ≤ data.length <;> simp [h5]
  | retryError => simp
  | ccError cc => simp

/-- C3: when every send attempt of one chunk fetch returns the recoverable
timeout completion code, _get_device_sdr_chunk raises RetryError having
issued exactly 4 requests, within the claimed bound of 5.  The attempt
budget is the local variable retry re-initialized to 5 on every call
(line 111), so it is per call, never shared across calls: the send count of
a call is a function of that call's environment alone. -/
theorem getDeviceSdrChunk_timeout_budget :
    getDeviceSdrChunk (fun _k => ⟨CC_TIMEOUT, 0, []⟩) = (FetchResult.retryError, 4) ∧
    4 ≤ 5 := by decide

/-- A get_device_sdr call for a well-formed record r of a repository served
by repoEnv returns exactly that record's bytes and its next record id, and
every chunk request of the call carries record id r. -/
theorem getDeviceSdr_repo (repo : Nat → List Nat × Nat) (r : Nat)
    (st : SensorState) (fuel : Nat)
    (hwf : wellFormedRecb repo r = true) (hf : 13 ≤ fuel) :
    ∃ tr,
      getDeviceSdr fuel st (repoEnv repo) r =
        ⟨.ok (repo r).1 ((repo r).2), tr, ⟨20⟩⟩ ∧
      2 ≤ tr.length ∧ ∀ e ∈ tr, e.1 = r := by
  simp only [wellFormedRecb, Bool.and_eq_true, decide_eq_true_eq] at hwf
  obtain ⟨⟨hL, hP⟩, hid⟩ := hwf
  obtain ⟨tr, heq, hlen2, hgd, hrid⟩ :=
    getDeviceSdr_ideal (repoEnv repo) (repo r).1 (fun _ => (repo r).2) st r fuel hL hP hf
      rfl (fun k off len _ => by rw [hid]; rfl)
  refine ⟨tr, heq, hlen2, ?_⟩
  intro e he
  rcases hrid e he with h | h
  · exact h
  · rw [h, hid]

/-- Enumeration walk lemma: when the id chain from record id r consists of
n + 1 well-formed non-sentinel records whose last one reports 0xffff, the
generator loop yields exactly the expected records, terminates normally,
and every chunk request it issues carries a non-sentinel record id. -/
theorem deviceSdrEntriesGo_ideal (repo : Nat → List Nat × Nat) (afuel : Nat)
    (haf : 13 ≤ afuel) :
    ∀ n fuel r st, chainOKb repo r n = true → n < fuel →
      ∃ tr,
        deviceSdrEntriesGo (repoEnv repo) afuel fuel st r =
          ⟨expectedYields repo r n, tr, true⟩ ∧
        ∀ e ∈ tr, e.1 ≠ 0xffff := by
  intro n
  induction n with
  | zero =>
    intro fuel r st hc hfu
    cases fuel with
    | zero => exact absurd hfu (by omega)
    | succ f =>
      simp only [chainOKb, Bool.and_eq_true, decide_eq_true_eq] at hc
      obtain ⟨⟨hwf, hr⟩, hnext⟩ := hc
      obtain ⟨tr, heq, _, hrid⟩ := getDeviceSdr_repo repo r st afuel hwf haf
      simp only [deviceSdrEntriesGo, heq]
      rw [if_pos hnext]
      refine ⟨tr, by simp [expectedYields], ?_⟩
      intro e he
      rw [hrid e he]
      exact hr
  | succ n ih =>
    intro fuel r st hc hfu
    cases fuel with
    | zero => exact absurd hfu (by omega)
    | succ f =>
      simp only [chainOKb, Bool.and_eq_true, decide_eq_true_eq] at hc
      obtain ⟨⟨⟨hwf, hr⟩, hnx⟩, hchain⟩ := hc
      obtain ⟨tr, heq, _, hrid⟩ := getDeviceSdr_repo repo r st afuel hwf haf
      obtain ⟨tr2, heq2, hrid2⟩ := ih f ((repo r).2) ⟨20⟩ hchain (by omega)
      simp only [deviceSdrEntriesGo, heq]
      rw [if_neg hnx]
      simp only [heq2]
      refine ⟨tr ++ tr2, by simp [expectedYields], ?_⟩
      intro e he
      rcases List.mem_append.mp he with h | h
      · rw [hrid e h]; exact hr
      · exact hrid2 e h

/-- The expected yield list of an n-step chain walk has n + 1 elements. -/
theorem expectedYields_length (repo : Nat → List Nat × Nat) :
    ∀ n r, (expectedYields repo r n).length = n + 1 := by
  intro n
  induction n with
  | zero => intro r; simp [expectedYields]
  | succ n ih => intro r; simp [expectedYields, ih]

/-- The expected yield list always starts with the current record. -/
theorem expectedYields_cons (repo : Nat → List Nat × Nat) (n r : Nat) :
    ∃ rest, expectedYields repo r n = ((repo r).1, (repo r).2) :: rest := by
  cases n <;> exact ⟨_, rfl⟩

/-- Under a valid chain, the last yielded next id is the sentinel 0xffff. -/
theorem expectedYields_last (repo : Nat → List Nat × Nat) :
    ∀ n r, chainOKb repo r n = true →
      ((expectedYields repo r n).map Prod.snd).getLast? = some 0xffff := by
  intro n
  induction n with
  | zero =>
    intro r hc
    simp only [chainOKb, Bool.and_eq_true, decide_eq_true_eq] at hc
    simp [expectedYields, hc.2]
  | succ n ih =>
    intro r hc
    simp only [chainOKb, Bool.and_eq_true, decide_eq_true_eq] at hc
    obtain ⟨rest, hsh⟩ := expectedYields_cons repo n ((repo r).2)
    have h2 := ih ((repo r).2) hc.2
    rw [hsh] at h2
    have hstep : expectedYields repo r (n + 1) =
        ((repo r).1, (repo r).2) :: expectedYields repo ((repo r).2) n := rfl
    rw [hstep, hsh]
    simp only [List.map_cons] at h2 ⊢
    rw [List.getLast?_cons_cons]
    exact h2

/-- Under a valid chain, every yield before the last reports a non-sentinel
next id. -/
theorem expectedYields_dropLast (repo : Nat → List Nat × Nat) :
    ∀ n r, chainOKb repo r n = true →
      ∀ p ∈ (expectedYields repo r n).dropLast, p.2 ≠ 0xffff := by
  intro n
  induction n with
  | zero =>
    intro r _hc p hp
    simp [expectedYields] at hp
  | succ n ih =>
    intro r hc p hp
    simp only [chainOKb, Bool.and_eq_true, decide_eq_true_eq] at hc
    obtain ⟨⟨⟨_hwf, _hr⟩, hnx⟩, hchain⟩ := hc
    obtain ⟨rest, hsh⟩ := expectedYields_cons repo n ((repo r).2)
    rw [show expectedYields repo r (n + 1) =
        ((repo r).1, (repo r).2) :: expectedYields repo ((repo r).2) n from rfl, hsh] at hp
    rw [show ((((repo r).1, (repo r).2) :: ((repo (repo r).2).1, (repo (repo r).2).2) ::
        rest).dropLast) = ((repo r).1, (repo r).2) ::
        (((repo (repo r).2).1, (repo (repo r).2).2) :: rest).dropLast from rfl] at hp
    rcases List.mem_cons.mp hp with h | h
    · rw [h]; exact hnx
    · exact ih ((repo r).2) hchain p (by rw [hsh]; exact h)

/-- C6: device_sdr_entries starts at record id 0x0000, continues after each
yielded record at that record's next record id, yields as its last element
the record whose next record id equals 0xffff and then stops (exactly n + 1
records for an n-step chain), and never fetches a record with id 0xffff:
every chunk request of the walk carries a non-sentinel record id. -/
theorem deviceSdrEntries_chain (repo : Nat → List Nat × Nat) (st : SensorState)
    (n fuel afuel : Nat)
    (hc : chainOKb repo 0 n = true) (hfuel : n < fuel) (haf : 13 ≤ afuel) :
    ∃ tr,
      deviceSdrEntries fuel afuel st (repoEnv repo) =
        ⟨expectedYields repo 0 n, tr, true⟩ ∧
      (expectedYields repo 0 n).length = n + 1 ∧
      ((expectedYields repo 0 n).map Prod.snd).getLast? = some 0xffff ∧
      (∀ p ∈ (expectedYields repo 0 n).dropLast, p.2 ≠ 0xffff) ∧
      ∀ e ∈ tr, e.1 ≠ 0xffff := by
  obtain ⟨tr, heq, htr⟩ := deviceSdrEntriesGo_ideal repo afuel haf n fuel 0 st hc hfuel
  exact ⟨tr, heq, expectedYields_length repo n 0, expectedYields_last repo n 0 hc,
    expectedYields_dropLast repo n 0 hc, htr⟩

/-- Concrete three-record repository whose chained next ids are 0x0001,
0x0002, 0xffff. -/
def chainRepo3 : Nat → List Nat × Nat :=
  fun r =>
    if r = 0 then ([0, 0, 1, 1, 0], 1)
    else if r = 1 then ([1, 0, 1, 1, 0], 2)
    else if r = 2 then ([2, 0, 1, 1, 0], 0xffff)
    else ([0, 0, 1, 1, 0], 0xffff)

/-- Witness for C6: with chained next ids [0x0001, 0x0002, 0xffff] starting
at 0x0000 the walk yields exactly 3 records and fetches only ids 0, 1, 2. -/
theorem deviceSdrEntries_chain_witness :
    ∃ tr,
      deviceSdrEntries 3 13 ⟨20⟩ (repoEnv chainRepo3) =
        ⟨expectedYields chainRepo3 0 2, tr, true⟩ ∧
      (expectedYields chainRepo3 0 2).length = 2 + 1 ∧
      ((expectedYields chainRepo3 0 2).map Prod.snd).getLast? = some 0xffff ∧
      (∀ p ∈ (expectedYields chainRepo3 0 2).dropLast, p.2 ≠ 0xffff) ∧
      ∀ e ∈ tr, e.1 ≠ 0xffff :=
  deviceSdrEntries_chain chainRepo3 ⟨20⟩ 2 3 13 (by decide) (by decide) (by decide)

/-- C7 counterexample: with states1 absent and states2 present, the source
evaluates None |= (states2 << 8) at line 239, which raises TypeError, so
the call does not return at all, contradicting the claim that the returned
assertion-states value is absent whenever states1 is absent. -/
theorem getSensorReading_states2_without_states1_cex :
    getSensorReading ⟨5, false, none, some 1⟩ = Except.error () := rfl

/-- C7 amended: provided states2 is present only when states1 is (the only
shapes the byte-ordered response parser produces), the assertion-states
value is absent exactly when states1 is absent, equals states1 when only it
is present, and equals states1 bitwise-or states2 shifted left by 8 bits
when both are present; the reading is absent while an initial update is in
progress.  When states1 is absent but states2 is present the decode instead
fails with a TypeError. -/
theorem getSensorReading_states_merge (rsp : GetSensorReadingRsp)
    (h : rsp.states2.isSome → rsp.states1.isSome) :
    getSensorReading rsp =
      Except.ok
        ((if rsp.initial_update_in_progress then none else some rsp.sensor_reading),
          (match rsp.states1, rsp.states2 with
           | none, _ => none
           | some v, none => some v
           | some v, some w => some (Nat.lor v (Nat.shiftLeft w 8)))) := by
  obtain ⟨v, iup, s1, s2⟩ := rsp
  cases s1 <;> cases s2 <;> simp_all [getSensorReading]

/-- Witness for C7 amended: states1 = 0x05 and states2 = 0x01 merge to
0x0105, and the reading is the raw byte since no initial update is in
progress. -/
theorem getSensorReading_states_merge_witness :
    getSensorReading ⟨0x2a, false, some 0x05, some 0x01⟩ =
      Except.ok (some 0x2a, some 0x0105) := by
  simpa using getSensorReading_states_merge ⟨0x2a, false, some 0x05, some 0x01⟩ (by decide)

/-- C8: set_sensor_thresholds sets, for exactly the thresholds supplied as
non-absent, the corresponding set-mask bit to 1 and the corresponding value
field; every threshold not supplied leaves both fields of the request
object untouched.  The final conjunct is the claim's example: starting from
the fresh request and supplying only ucr = 80 yields a request with only
the ucr set bit asserted, ucr value 80 and all other set bits zero. -/
theorem setSensorThresholds_sets_exactly_supplied
    (req0 : SetSensorThresholdsReq) (sn ln : Nat)
    (unr ucr unc lnc lcr lnr : Option Nat) :
    (setSensorThresholds req0 sn ln unr ucr unc lnc lcr lnr).sensor_number = sn ∧
    (setSensorThresholds req0 sn ln unr ucr unc lnc lcr lnr).lun = ln ∧
    (setSensorThresholds req0 sn ln unr ucr unc lnc lcr lnr).set_mask.unr =
      (if unr.isSome then 1 else req0.set_mask.unr) ∧
    (setSensorThresholds req0 sn ln unr ucr unc lnc lcr lnr).threshold.unr =
      unr.getD req0.threshold.unr ∧
    (setSensorThresholds req0 sn ln unr ucr unc lnc lcr lnr).set_mask.ucr =
      (if ucr.isSome then 1 else req0.set_mask.ucr) ∧
    (setSensorThresholds req0 sn ln unr ucr unc lnc lcr lnr).threshold.ucr =
      ucr.getD req0.threshold.ucr ∧
    (setSensorThresholds req0 sn ln unr ucr unc lnc lcr lnr).set_mask.unc =
      (if unc.isSome then 1 else req0.set_mask.unc) ∧
    (setSensorThresholds req0 sn ln unr ucr unc lnc lcr lnr).threshold.unc =
      unc.getD req0.threshold.unc ∧
    (setSensorThresholds req0 sn ln unr ucr unc lnc lcr lnr).set_mask.lnc =
      (if lnc.isSome then 1 else req0.set_mask.lnc) ∧
    (setSensorThresholds req0 sn ln unr ucr unc lnc lcr lnr).threshold.lnc =
      lnc.getD req0.threshold.lnc ∧
    (setSensorThresholds req0 sn ln unr ucr unc lnc lcr lnr).set_mask.lcr =
      (if lcr.isSome then 1 else req0.set_mask.lcr) ∧
    (setSensorThresholds req0 sn ln unr ucr unc lnc lcr lnr).threshold.lcr =
      lcr.getD req0.threshold.lcr ∧
    (setSensorThresholds req0 sn ln unr ucr unc lnc lcr lnr).set_mask.lnr =
      (if lnr.isSome then 1 else req0.set_mask.lnr) ∧
    (setSensorThresholds req0 sn ln unr ucr unc lnc lcr lnr).threshold.lnr =
      lnr.getD req0.threshold.lnr ∧
    setSensorThresholds freshSetSensorThresholdsReq 1 0 none (some 80) none none none none =
      ⟨1, 0, ⟨0, 1, 0, 0, 0, 0⟩, ⟨0, 80, 0, 0, 0, 0⟩⟩ := by
  cases unr <;> cases ucr <;> cases unc <;> cases lnc <;> cases lcr <;> cases lnr <;>
    simp [setSensorThresholds, freshSetSensorThresholdsReq]
